import Mathlib

/-!
Verification of the dabry/mermoz navigation core against its specification.

This file shallowly embeds the parts of the repository relevant to the
checked claims:

* `src/src/mermoz/rft.py` — the reachability front tracker (finite
  difference kernels `upwind_diff`, `central_diff`, `wind_dot_phi`,
  `grad`/`norm_grad`, and the `RFT` class with `compute`,
  `update_phi`, `toggle_flatten`);
* `src/src/wind.py` — the `Wind` base class with its `__add__` and
  `__mul__` operators;
* `src/src/mermoz/problem.py` — the finite-difference obstacle gradient
  fallback built in `MermozProblem.__init__`;
* `src/dabry/obstacle.py` — `WrapperObs`, `CircleObs`, `WatershedObs`
  and `GreatCircleObs`.

Python float arrays are modelled by total functions into an ordered
field (`ℚ` or `ℝ` at use sites), i.e. exact real arithmetic.  Grids are
functions `ℕ → ℕ → K` together with explicit extents `nx ny : ℕ`;
entries outside the grid are irrelevant to every statement below.
-/

namespace Dabry

/-! ### Finite-difference kernels (`src/src/mermoz/rft.py`)

The three kernels `upwind_diff`, `central_diff` and `wind_dot_phi` all
follow the same shape: `res = np.zeros(...)`, an interior double loop
writing a stencil at `1 ≤ i ≤ nx-2`, `1 ≤ j ≤ ny-2`, then four
textually identical boundary blocks copying edge rows, edge columns and
the four corners.  We embed the interior stencils per kernel and the
(shared, repeated verbatim in the source) boundary blocks once. -/

variable {K : Type*} [LinearOrderedField K]

/-- Interior stencil of `upwind_diff` (rft.py lines 31-49): the
`if/elif` chain on the three neighbouring values along the axis.  The
final `else 0` is Python's fall-through to the `np.zeros`
initialisation (never reached: the four guards are exhaustive). -/
def upwindStencil (field : ℕ → ℕ → K) (axis : Fin 2) (delta : K) (i j : ℕ) : K :=
  if axis = 0 then
    if field (i-1) j < field i j ∧ field i j < field (i+1) j then
      (field i j - field (i-1) j) / delta
    else if field (i-1) j > field i j ∧ field i j > field (i+1) j then
      (field (i+1) j - field i j) / delta
    else if field (i-1) j ≤ field i j ∧ field i j ≥ field (i+1) j then
      (field (i+1) j - field (i-1) j) / (2 * delta)
    else if field (i-1) j ≥ field i j ∧ field i j ≤ field (i+1) j then 0
    else 0
  else
    if field i (j-1) < field i j ∧ field i j < field i (j+1) then
      (field i j - field i (j-1)) / delta
    else if field i (j-1) > field i j ∧ field i j > field i (j+1) then
      (field i (j+1) - field i j) / delta
    else if field i (j-1) ≤ field i j ∧ field i j ≥ field i (j+1) then
      (field i (j+1) - field i (j-1)) / (2 * delta)
    else if field i (j-1) ≥ field i j ∧ field i j ≤ field i (j+1) then 0
    else 0

/-- Interior stencil of `central_diff` (rft.py lines 114-118). -/
def centralStencil (field : ℕ → ℕ → K) (axis : Fin 2) (delta : K) (i j : ℕ) : K :=
  if axis = 0 then (field (i+1) j - field (i-1) j) / (2 * delta)
  else (field i (j+1) - field i (j-1)) / (2 * delta)

/-- Interior stencil of `wind_dot_phi` (rft.py lines 77-83): first-order
upwind advection, Sethian 6.45.  Note the single step `delta` used for
both axes, exactly as in the source. -/
def windDotStencil (field : ℕ → ℕ → K) (wind : ℕ → ℕ → K × K) (delta : K)
    (i j : ℕ) : K :=
  let d_mx := (field i j - field (i-1) j) / delta
  let d_px := (field (i+1) j - field i j) / delta
  let d_my := (field i j - field i (j-1)) / delta
  let d_py := (field i (j+1) - field i j) / delta
  max (wind i j).1 0 * d_mx + min (wind i j).1 0 * d_px +
    max (wind i j).2 0 * d_my + min (wind i j).2 0 * d_py

/-- `res = np.zeros(field.shape)` plus the interior double loop
`for i in range(1, nx-1): for j in range(1, ny-1)` of the kernels. -/
def fdInterior (nx ny : ℕ) (stencil : ℕ → ℕ → K) : ℕ → ℕ → K := fun i j =>
  if 1 ≤ i ∧ i + 1 < nx ∧ 1 ≤ j ∧ j + 1 < ny then stencil i j else 0

/-- First boundary block: `for j in range(1, ny-1): res[0,j] = res[1,j];
res[nx-1,j] = res[nx-2,j]`. -/
def fdEdgesX (nx ny : ℕ) (r : ℕ → ℕ → K) : ℕ → ℕ → K := fun i j =>
  if 1 ≤ j ∧ j + 1 < ny then
    if i = 0 then r 1 j else if i = nx - 1 then r (nx - 2) j else r i j
  else r i j

/-- Second boundary block: `for i in range(1, nx-1): res[i,0] = res[i,1];
res[i,ny-1] = res[i,ny-2]`. -/
def fdEdgesY (nx ny : ℕ) (r : ℕ → ℕ → K) : ℕ → ℕ → K := fun i j =>
  if 1 ≤ i ∧ i + 1 < nx then
    if j = 0 then r i 1 else if j = ny - 1 then r i (ny - 2) else r i j
  else r i j

/-- Third boundary block: the four corner copies. -/
def fdCorners (nx ny : ℕ) (r : ℕ → ℕ → K) : ℕ → ℕ → K := fun i j =>
  if i = 0 ∧ j = 0 then r 1 1
  else if i = nx - 1 ∧ j = 0 then r (nx - 2) 1
  else if i = 0 ∧ j = ny - 1 then r 1 (ny - 2)
  else if i = nx - 1 ∧ j = ny - 1 then r (nx - 2) (ny - 2)
  else r i j

/-- Interior loop followed by the three boundary blocks, shared by all
three kernels (the source repeats the boundary code verbatim in each). -/
def fdAssemble (nx ny : ℕ) (stencil : ℕ → ℕ → K) : ℕ → ℕ → K :=
  fdCorners nx ny (fdEdgesY nx ny (fdEdgesX nx ny (fdInterior nx ny stencil)))

/-- `upwind_diff` (rft.py lines 15-60), restricted to the two valid axes
(an invalid axis makes the Python function `exit(1)`; see
`upwind_diff_checked`). -/
def upwind_diff (field : ℕ → ℕ → K) (nx ny : ℕ) (axis : Fin 2) (delta : K) :
    ℕ → ℕ → K :=
  fdAssemble nx ny (upwindStencil field axis delta)

/-- `central_diff` (rft.py lines 98-129), restricted to the two valid axes. -/
def central_diff (field : ℕ → ℕ → K) (nx ny : ℕ) (axis : Fin 2) (delta : K) :
    ℕ → ℕ → K :=
  fdAssemble nx ny (centralStencil field axis delta)

/-- `wind_dot_phi` (rft.py lines 63-95). -/
def wind_dot_phi (field : ℕ → ℕ → K) (wind : ℕ → ℕ → K × K) (nx ny : ℕ)
    (delta : K) : ℕ → ℕ → K :=
  fdAssemble nx ny (windDotStencil field wind delta)

/-- The axis guard of `upwind_diff` and `central_diff`
(rft.py lines 24-26 and 107-109): an axis other than 0 or 1 prints
"Only handles 2D fields" and calls `exit(1)`, i.e. no array is ever
returned.  `none` models the fatal exit. -/
def central_diff_checked (field : ℕ → ℕ → K) (nx ny : ℕ) (axis : ℤ)
    (delta : K) : Option (ℕ → ℕ → K) :=
  if axis = 0 ∨ axis = 1 then
    some (central_diff field nx ny (if axis = 0 then 0 else 1) delta)
  else none

/-- Same axis guard for `upwind_diff`. -/
def upwind_diff_checked (field : ℕ → ℕ → K) (nx ny : ℕ) (axis : ℤ)
    (delta : K) : Option (ℕ → ℕ → K) :=
  if axis = 0 ∨ axis = 1 then
    some (upwind_diff field nx ny (if axis = 0 then 0 else 1) delta)
  else none

/-! #### Interior and boundary behaviour of the assembled kernels -/

/-- At an interior cell the assembled kernel is just the stencil. -/
theorem fdAssemble_interior (nx ny : ℕ) (st : ℕ → ℕ → K) {i j : ℕ}
    (hi1 : 1 ≤ i) (hi2 : i + 1 < nx) (hj1 : 1 ≤ j) (hj2 : j + 1 < ny) :
    fdAssemble nx ny st i j = st i j := by
  unfold fdAssemble fdCorners fdEdgesY fdEdgesX fdInterior
  have hi0 : i ≠ 0 := by omega
  have hin : i ≠ nx - 1 := by omega
  have hj0 : j ≠ 0 := by omega
  have hjn : j ≠ ny - 1 := by omega
  simp [hi0, hin, hj0, hjn, hi1, hi2, hj1, hj2]

/-- Left edge `res[0, j] = res[1, j]` evaluates to the interior stencil. -/
theorem fdAssemble_row0 (nx ny : ℕ) (st : ℕ → ℕ → K) {j : ℕ}
    (h3x : 3 ≤ nx) (hj1 : 1 ≤ j) (hj2 : j + 1 < ny) :
    fdAssemble nx ny st 0 j = st 1 j := by
  unfold fdAssemble fdCorners fdEdgesY fdEdgesX fdInterior
  simp [show j ≠ 0 by omega, show j ≠ ny - 1 by omega, hj1, hj2,
    show 1 + 1 < nx by omega]

/-- Right edge `res[nx-1, j] = res[nx-2, j]`. -/
theorem fdAssemble_rowLast (nx ny : ℕ) (st : ℕ → ℕ → K) {j : ℕ}
    (h3x : 3 ≤ nx) (hj1 : 1 ≤ j) (hj2 : j + 1 < ny) :
    fdAssemble nx ny st (nx - 1) j = st (nx - 2) j := by
  unfold fdAssemble fdCorners fdEdgesY fdEdgesX fdInterior
  simp [show nx - 1 ≠ 0 by omega, show j ≠ 0 by omega, show j ≠ ny - 1 by omega,
    show ¬(nx - 1 + 1 < nx) by omega, show 1 ≤ nx - 2 by omega,
    show nx - 2 + 1 < nx by omega, hj1, hj2]

/-- Bottom edge `res[i, 0] = res[i, 1]`. -/
theorem fdAssemble_col0 (nx ny : ℕ) (st : ℕ → ℕ → K) {i : ℕ}
    (h3y : 3 ≤ ny) (hi1 : 1 ≤ i) (hi2 : i + 1 < nx) :
    fdAssemble nx ny st i 0 = st i 1 := by
  unfold fdAssemble fdCorners fdEdgesY fdEdgesX fdInterior
  simp [show i ≠ 0 by omega, show i ≠ nx - 1 by omega,
    show (0 : ℕ) ≠ ny - 1 by omega, hi1, hi2, show 1 + 1 < ny by omega]

/-- Top edge `res[i, ny-1] = res[i, ny-2]`. -/
theorem fdAssemble_colLast (nx ny : ℕ) (st : ℕ → ℕ → K) {i : ℕ}
    (h3y : 3 ≤ ny) (hi1 : 1 ≤ i) (hi2 : i + 1 < nx) :
    fdAssemble nx ny st i (ny - 1) = st i (ny - 2) := by
  unfold fdAssemble fdCorners fdEdgesY fdEdgesX fdInterior
  simp [show ny - 1 ≠ 0 by omega, show i ≠ 0 by omega, show i ≠ nx - 1 by omega,
    show 1 ≤ ny - 2 by omega, show ny - 2 + 1 < ny by omega, hi1, hi2]

/-- Corner `res[0, 0] = res[1, 1]`. -/
theorem fdAssemble_corner00 (nx ny : ℕ) (st : ℕ → ℕ → K)
    (h3x : 3 ≤ nx) (h3y : 3 ≤ ny) :
    fdAssemble nx ny st 0 0 = st 1 1 := by
  unfold fdAssemble fdCorners fdEdgesY fdEdgesX fdInterior
  simp [show 1 + 1 < nx by omega, show 1 + 1 < ny by omega,
    show (1 : ℕ) ≠ ny - 1 by omega, show (1 : ℕ) ≠ nx - 1 by omega]

/-- Corner `res[nx-1, 0] = res[nx-2, 1]`. -/
theorem fdAssemble_cornerN0 (nx ny : ℕ) (st : ℕ → ℕ → K)
    (h3x : 3 ≤ nx) (h3y : 3 ≤ ny) :
    fdAssemble nx ny st (nx - 1) 0 = st (nx - 2) 1 := by
  unfold fdAssemble fdCorners fdEdgesY fdEdgesX fdInterior
  simp [show nx - 1 ≠ 0 by omega, show 1 ≤ nx - 2 by omega,
    show nx - 2 + 1 < nx by omega, show (1 : ℕ) ≠ ny - 1 by omega,
    show 1 + 1 < ny by omega, show nx - 2 ≠ 0 by omega,
    show nx - 2 ≠ nx - 1 by omega]

/-- Corner `res[0, ny-1] = res[1, ny-2]`. -/
theorem fdAssemble_corner0N (nx ny : ℕ) (st : ℕ → ℕ → K)
    (h3x : 3 ≤ nx) (h3y : 3 ≤ ny) :
    fdAssemble nx ny st 0 (ny - 1) = st 1 (ny - 2) := by
  unfold fdAssemble fdCorners fdEdgesY fdEdgesX fdInterior
  simp [show ny - 1 ≠ 0 by omega, show 1 + 1 < nx by omega,
    show ny - 2 ≠ 0 by omega, show ny - 2 ≠ ny - 1 by omega,
    show 1 ≤ ny - 2 by omega, show ny - 2 + 1 < ny by omega,
    show (1 : ℕ) ≠ nx - 1 by omega]

/-- Corner `res[nx-1, ny-1] = res[nx-2, ny-2]`. -/
theorem fdAssemble_cornerNN (nx ny : ℕ) (st : ℕ → ℕ → K)
    (h3x : 3 ≤ nx) (h3y : 3 ≤ ny) :
    fdAssemble nx ny st (nx - 1) (ny - 1) = st (nx - 2) (ny - 2) := by
  unfold fdAssemble fdCorners fdEdgesY fdEdgesX fdInterior
  simp [show nx - 1 ≠ 0 by omega, show ny - 1 ≠ 0 by omega,
    show 1 ≤ nx - 2 by omega, show nx - 2 + 1 < nx by omega,
    show ny - 2 ≠ 0 by omega, show ny - 2 ≠ ny - 1 by omega,
    show 1 ≤ ny - 2 by omega, show ny - 2 + 1 < ny by omega,
    show nx - 2 ≠ 0 by omega, show nx - 2 ≠ nx - 1 by omega]

/-- The boundary property claimed for every kernel output `g`: each
non-corner edge cell equals the adjacent cell one step inward
orthogonally, each corner the cell one step inward diagonally. -/
def boundaryCopied (nx ny : ℕ) (g : ℕ → ℕ → K) : Prop :=
  (∀ j, 1 ≤ j → j + 1 < ny → g 0 j = g 1 j ∧ g (nx - 1) j = g (nx - 2) j) ∧
  (∀ i, 1 ≤ i → i + 1 < nx → g i 0 = g i 1 ∧ g i (ny - 1) = g i (ny - 2)) ∧
  g 0 0 = g 1 1 ∧ g (nx - 1) 0 = g (nx - 2) 1 ∧
  g 0 (ny - 1) = g 1 (ny - 2) ∧ g (nx - 1) (ny - 1) = g (nx - 2) (ny - 2)

/-- Any assembled kernel has the copied boundary ring. -/
theorem fdAssemble_boundaryCopied (nx ny : ℕ) (st : ℕ → ℕ → K)
    (h3x : 3 ≤ nx) (h3y : 3 ≤ ny) :
    boundaryCopied nx ny (fdAssemble nx ny st) := by
  refine ⟨fun j hj1 hj2 => ⟨?_, ?_⟩, fun i hi1 hi2 => ⟨?_, ?_⟩, ?_, ?_, ?_, ?_⟩
  · rw [fdAssemble_row0 nx ny st h3x hj1 hj2,
      fdAssemble_interior nx ny st le_rfl (by omega) hj1 hj2]
  · rw [fdAssemble_rowLast nx ny st h3x hj1 hj2,
      fdAssemble_interior nx ny st (by omega) (by omega) hj1 hj2]
  · rw [fdAssemble_col0 nx ny st h3y hi1 hi2,
      fdAssemble_interior nx ny st hi1 hi2 le_rfl (by omega)]
  · rw [fdAssemble_colLast nx ny st h3y hi1 hi2,
      fdAssemble_interior nx ny st hi1 hi2 (by omega) (by omega)]
  · rw [fdAssemble_corner00 nx ny st h3x h3y,
      fdAssemble_interior nx ny st le_rfl (by omega) le_rfl (by omega)]
  · rw [fdAssemble_cornerN0 nx ny st h3x h3y,
      fdAssemble_interior nx ny st (by omega) (by omega) le_rfl (by omega)]
  · rw [fdAssemble_corner0N nx ny st h3x h3y,
      fdAssemble_interior nx ny st le_rfl (by omega) (by omega) (by omega)]
  · rw [fdAssemble_cornerNN nx ny st h3x h3y,
      fdAssemble_interior nx ny st (by omega) (by omega) (by omega) (by omega)]

/-! ### The `RFT` front tracker (`src/src/mermoz/rft.py`, class `RFT`)

State and methods over exact real arithmetic.  `np.linalg.norm` on a
2-vector is `norm2`.  The `matlab` kernel branch (subprocess round
trip) is out of scope; the claims concern the native `base` kernel.
The `phi` and `wind` arrays are set to `None` by `__init__` and
allocated externally, so the embedded constructor takes them as
parameters.  `flatten_factor` is the `EARTH_RADIUS` constant imported
from `mermoz.misc` (not under `src/`); it is kept as a state field. -/

/-- Euclidean norm of a 2-vector, `np.linalg.norm`. -/
noncomputable def norm2 (v : ℝ × ℝ) : ℝ := Real.sqrt (v.1 ^ 2 + v.2 ^ 2)

/-- `norm_grad` (rft.py lines 154-172) with `method='central'`, the only
method `update_phi` passes: `sqrt(diff0 ** 2 + diff1 ** 2)` of the two
assembled central-difference arrays. -/
noncomputable def norm_grad (field : ℕ → ℕ → ℝ) (nx ny : ℕ) (δx δy : ℝ) :
    ℕ → ℕ → ℝ := fun i j =>
  Real.sqrt ((central_diff field nx ny 0 δx i j) ^ 2 +
    (central_diff field nx ny 1 δy i j) ^ 2)

/-- The mutable state of an `RFT` instance (the fields the claims touch). -/
structure RFTState where
  bl : ℝ × ℝ
  tr : ℝ × ℝ
  max_time : ℝ
  nx : ℕ
  ny : ℕ
  nt : ℕ
  delta_x : ℝ
  delta_y : ℝ
  delta_t : ℝ
  speed : ℝ
  x_init : ℝ × ℝ
  wind : ℕ → ℕ → ℕ → ℝ × ℝ
  phi : ℕ → ℕ → ℕ → ℝ
  flatten : Bool
  flatten_factor : ℝ
  method : String
  t : ℕ

/-- `RFT.__init__` (rft.py lines 180-235): grid spacings from the
corners and counts, `flatten = False`, `t = 0`.  `speed` is
`mp.model.v_a`; `wind0`/`phi0` stand for the externally allocated
arrays. -/
noncomputable def RFT.init (bl tr : ℝ × ℝ) (max_time : ℝ) (nx ny nt : ℕ) (speed : ℝ)
    (x_init : ℝ × ℝ) (method : String) (flatten_factor : ℝ)
    (wind0 : ℕ → ℕ → ℕ → ℝ × ℝ) (phi0 : ℕ → ℕ → ℕ → ℝ) : RFTState :=
  { bl := bl, tr := tr, max_time := max_time, nx := nx, ny := ny, nt := nt
    delta_x := (tr.1 - bl.1) / ((nx : ℝ) - 1)
    delta_y := (tr.2 - bl.2) / ((ny : ℝ) - 1)
    delta_t := max_time / ((nt : ℝ) - 1)
    speed := speed, x_init := x_init, wind := wind0, phi := phi0
    flatten := false, flatten_factor := flatten_factor
    method := method, t := 0 }

/-- The `t = 0` initialisation loop of `RFT.compute` with the `base`
kernel (rft.py lines 246-249): for every grid cell,
`phi[i, j, 0] = np.linalg.norm(x_init - point) - 5e-3` with
`point = bl + (delta_x * i, delta_y * j)`. -/
noncomputable def initPhiSlice (s : RFTState) : RFTState :=
  { s with phi := fun i j k =>
      if i < s.nx ∧ j < s.ny ∧ k = 0 then
        norm2 (s.x_init.1 - (s.bl.1 + s.delta_x * i),
               s.x_init.2 - (s.bl.2 + s.delta_y * j)) - 5e-3
      else s.phi i j k }

/-- `RFT.update_phi` (rft.py lines 324-358).  The `lolla` branch is the
three-stage splitting; the `sethian` branch is the single-step update;
any other method name only prints a message — the trailing
`self.t += 1` still executes. -/
noncomputable def update_phi (s : RFTState) : RFTState :=
  if s.method = "lolla" then
    let phi_cur : ℕ → ℕ → ℝ := fun i j => s.phi i j s.t
    let phi_star : ℕ → ℕ → ℝ := fun i j =>
      phi_cur i j - s.delta_t / 2 * s.speed *
        norm_grad phi_cur s.nx s.ny s.delta_x s.delta_y i j
    let phi_sstar : ℕ → ℕ → ℝ := fun i j =>
      phi_star i j - s.delta_t *
        ((s.wind i j s.t).1 * central_diff phi_star s.nx s.ny 0 s.delta_x i j +
         (s.wind i j s.t).2 * central_diff phi_star s.nx s.ny 1 s.delta_y i j)
    let phi_next : ℕ → ℕ → ℝ := fun i j =>
      phi_sstar i j - s.delta_t / 2 * s.speed *
        norm_grad phi_sstar s.nx s.ny s.delta_x s.delta_y i j
    { s with
      phi := fun i j k => if k = s.t + 1 then phi_next i j else s.phi i j k
      t := s.t + 1 }
  else if s.method = "sethian" then
    let phi_cur : ℕ → ℕ → ℝ := fun i j => s.phi i j s.t
    let phi_next : ℕ → ℕ → ℝ := fun i j =>
      phi_cur i j - s.delta_t *
        (s.speed * norm_grad phi_cur s.nx s.ny s.delta_x s.delta_y i j +
         wind_dot_phi phi_cur (fun a b => s.wind a b s.t) s.nx s.ny
           s.delta_x i j)
    { s with
      phi := fun i j k => if k = s.t + 1 then phi_next i j else s.phi i j k
      t := s.t + 1 }
  else
    { s with t := s.t + 1 }

/-- `RFT.toggle_flatten` (rft.py lines 305-322). -/
noncomputable def toggle_flatten (s : RFTState) : RFTState :=
  let factor := if s.flatten = false then s.flatten_factor
                else 1 / s.flatten_factor
  { s with
    flatten := !s.flatten
    bl := (factor * s.bl.1, factor * s.bl.2)
    tr := (factor * s.tr.1, factor * s.tr.2)
    delta_x := s.delta_x * factor
    delta_y := s.delta_y * factor
    x_init := (factor * s.x_init.1, factor * s.x_init.2) }

/-! #### Helper lemmas on `update_phi` -/

/-- The value written to slice `t+1` by the `sethian` branch. -/
noncomputable def sethianNext (s : RFTState) (i j : ℕ) : ℝ :=
  s.phi i j s.t - s.delta_t *
    (s.speed * norm_grad (fun a b => s.phi a b s.t) s.nx s.ny
        s.delta_x s.delta_y i j +
     wind_dot_phi (fun a b => s.phi a b s.t) (fun a b => s.wind a b s.t)
        s.nx s.ny s.delta_x i j)

/-- The value written to slice `t+1` by the `lolla` branch (the
three-stage splitting, rft.py lines 325-345). -/
noncomputable def lollaNext (s : RFTState) (i j : ℕ) : ℝ :=
  let phi_cur : ℕ → ℕ → ℝ := fun a b => s.phi a b s.t
  let phi_star : ℕ → ℕ → ℝ := fun a b =>
    phi_cur a b - s.delta_t / 2 * s.speed *
      norm_grad phi_cur s.nx s.ny s.delta_x s.delta_y a b
  let phi_sstar : ℕ → ℕ → ℝ := fun a b =>
    phi_star a b - s.delta_t *
      ((s.wind a b s.t).1 * central_diff phi_star s.nx s.ny 0 s.delta_x a b +
       (s.wind a b s.t).2 * central_diff phi_star s.nx s.ny 1 s.delta_y a b)
  phi_sstar i j - s.delta_t / 2 * s.speed *
    norm_grad phi_sstar s.nx s.ny s.delta_x s.delta_y i j

theorem update_phi_t (s : RFTState) : (update_phi s).t = s.t + 1 := by
  unfold update_phi
  split_ifs <;> rfl

theorem update_phi_phi_ne (s : RFTState) (i j k : ℕ) (hk : k ≠ s.t + 1) :
    (update_phi s).phi i j k = s.phi i j k := by
  unfold update_phi
  split_ifs <;> simp [hk]

theorem update_phi_sethian_slice (s : RFTState) (hm : s.method = "sethian")
    (i j : ℕ) : (update_phi s).phi i j (s.t + 1) = sethianNext s i j := by
  unfold update_phi
  rw [if_neg (by rw [hm]; decide), if_pos hm]
  simp [sethianNext]

theorem update_phi_lolla_slice (s : RFTState) (hm : s.method = "lolla")
    (i j : ℕ) : (update_phi s).phi i j (s.t + 1) = lollaNext s i j := by
  unfold update_phi
  rw [if_pos hm]
  simp [lollaNext]

/-- The `sethian` slice value is determined by slice `t`, the flow
sample at `t` and the numeric parameters. -/
theorem sethianNext_congr (s'' s' : RFTState) (ht : s''.t = s'.t)
    (hnx : s''.nx = s'.nx) (hny : s''.ny = s'.ny)
    (hdx : s''.delta_x = s'.delta_x) (hdy : s''.delta_y = s'.delta_y)
    (hdt : s''.delta_t = s'.delta_t) (hsp : s''.speed = s'.speed)
    (hphi : ∀ a b, s''.phi a b s'.t = s'.phi a b s'.t)
    (hwind : ∀ a b, s''.wind a b s'.t = s'.wind a b s'.t) (a b : ℕ) :
    sethianNext s'' a b = sethianNext s' a b := by
  unfold sethianNext
  rw [ht, hnx, hny, hdx, hdy, hdt, hsp]
  simp only [hphi, hwind]

/-- The `lolla` slice value is determined by slice `t`, the flow sample
at `t` and the numeric parameters. -/
theorem lollaNext_congr (s'' s' : RFTState) (ht : s''.t = s'.t)
    (hnx : s''.nx = s'.nx) (hny : s''.ny = s'.ny)
    (hdx : s''.delta_x = s'.delta_x) (hdy : s''.delta_y = s'.delta_y)
    (hdt : s''.delta_t = s'.delta_t) (hsp : s''.speed = s'.speed)
    (hphi : ∀ a b, s''.phi a b s'.t = s'.phi a b s'.t)
    (hwind : ∀ a b, s''.wind a b s'.t = s'.wind a b s'.t) (a b : ℕ) :
    lollaNext s'' a b = lollaNext s' a b := by
  unfold lollaNext
  rw [ht, hnx, hny, hdx, hdy, hdt, hsp]
  simp only [hphi, hwind]

/-- At an interior cell, the `sethian` slice value fully expanded:
centered differences (with the axis's own step) inside the eikonal
norm, and the four upwind one-sided differences of the advection term,
all divided by `delta_x` — the single step `wind_dot_phi` receives. -/
theorem sethianNext_interior (s : RFTState) (i j : ℕ)
    (hi1 : 1 ≤ i) (hi2 : i + 1 < s.nx) (hj1 : 1 ≤ j) (hj2 : j + 1 < s.ny) :
    sethianNext s i j =
      s.phi i j s.t - s.delta_t *
        (s.speed * Real.sqrt
            (((s.phi (i+1) j s.t - s.phi (i-1) j s.t) / (2 * s.delta_x)) ^ 2 +
             ((s.phi i (j+1) s.t - s.phi i (j-1) s.t) / (2 * s.delta_y)) ^ 2) +
         (max (s.wind i j s.t).1 0 *
              ((s.phi i j s.t - s.phi (i-1) j s.t) / s.delta_x) +
          min (s.wind i j s.t).1 0 *
              ((s.phi (i+1) j s.t - s.phi i j s.t) / s.delta_x) +
          max (s.wind i j s.t).2 0 *
              ((s.phi i j s.t - s.phi i (j-1) s.t) / s.delta_x) +
          min (s.wind i j s.t).2 0 *
              ((s.phi i (j+1) s.t - s.phi i j s.t) / s.delta_x))) := by
  unfold sethianNext norm_grad central_diff wind_dot_phi
  rw [fdAssemble_interior _ _ _ hi1 hi2 hj1 hj2,
      fdAssemble_interior _ _ _ hi1 hi2 hj1 hj2,
      fdAssemble_interior _ _ _ hi1 hi2 hj1 hj2]
  simp [centralStencil, windDotStencil, show (1 : Fin 2) ≠ 0 by decide]

/-- Swapping the subtraction order inside `norm2` is invisible. -/
theorem norm2_swap (a b c d : ℝ) :
    norm2 (a - b, c - d) = norm2 (b - a, d - c) := by
  unfold norm2
  congr 1
  ring

end Dabry

/-- The property claim C2 asserts of a freshly initialised native-kernel
tracker state `s` and of every update step under either native scheme
(`sethian` or `lolla`). -/
def C2Prop (bl tr xi : ℝ × ℝ) (maxT : ℝ) (nx ny nt : ℕ)
    (s : Dabry.RFTState) (i j : ℕ) : Prop :=
  (s.phi i j 0 =
      Dabry.norm2 (bl.1 + s.delta_x * i - xi.1, bl.2 + s.delta_y * j - xi.2)
        - 5e-3 ∧ (0 : ℝ) < 5e-3)
  ∧ s.delta_x = (tr.1 - bl.1) / ((nx : ℝ) - 1)
  ∧ s.delta_y = (tr.2 - bl.2) / ((ny : ℝ) - 1)
  ∧ s.delta_t = maxT / ((nt : ℝ) - 1)
  ∧ (∀ s' : Dabry.RFTState,
      s'.method = "sethian" ∨ s'.method = "lolla" →
      (Dabry.update_phi s').t = s'.t + 1
      ∧ (∀ a b k, k ≠ s'.t + 1 →
          (Dabry.update_phi s').phi a b k = s'.phi a b k)
      ∧ (∀ s'' : Dabry.RFTState, s''.method = s'.method → s''.t = s'.t →
          s''.nx = s'.nx → s''.ny = s'.ny → s''.delta_x = s'.delta_x →
          s''.delta_y = s'.delta_y → s''.delta_t = s'.delta_t →
          s''.speed = s'.speed →
          (∀ a b, s''.phi a b s'.t = s'.phi a b s'.t) →
          (∀ a b, s''.wind a b s'.t = s'.wind a b s'.t) →
          ∀ a b, (Dabry.update_phi s'').phi a b (s'.t + 1) =
            (Dabry.update_phi s').phi a b (s'.t + 1)))

/-- C2: with the native kernel, `phi[i,j,0] = ‖(bl + (i·δx, j·δy)) −
x_init‖ − ε` with `ε = 5e-3 > 0` at every grid cell, the constructor
spacings are `δx = (tr.x−bl.x)/(nx−1)`, `δy`, `δt` analogous, and every
update step under either native scheme (`sethian` or `lolla`) writes
exactly slice `t+1`, leaves all other slices untouched, and computes
the new slice solely from slice `t` (and the flow sample at `t`). -/
theorem claim_C2_init_and_order (bl tr xi : ℝ × ℝ) (maxT speed ff : ℝ)
    (nx ny nt : ℕ) (m : String) (w : ℕ → ℕ → ℕ → ℝ × ℝ)
    (p : ℕ → ℕ → ℕ → ℝ) (s : Dabry.RFTState)
    (hs : s = Dabry.initPhiSlice
      (Dabry.RFT.init bl tr maxT nx ny nt speed xi m ff w p))
    (i j : ℕ) (hi : i < nx) (hj : j < ny) :
    C2Prop bl tr xi maxT nx ny nt s i j := by
  subst hs
  refine ⟨⟨?_, by norm_num⟩, rfl, rfl, rfl, fun s' hm' => ⟨Dabry.update_phi_t s',
    fun a b k hk => Dabry.update_phi_phi_ne s' a b k hk, ?_⟩⟩
  · show (if i < nx ∧ j < ny ∧ 0 = 0 then _ else _) = _
    rw [if_pos ⟨hi, hj, rfl⟩, Dabry.norm2_swap]
    rfl
  · intro s'' hmm ht hnx hny hdx hdy hdt hsp hphi hwind a b
    rcases hm' with hm' | hm'
    · have h2 := Dabry.update_phi_sethian_slice s'' (hmm.trans hm') a b
      rw [ht] at h2
      rw [h2, Dabry.update_phi_sethian_slice s' hm' a b]
      exact Dabry.sethianNext_congr s'' s' ht hnx hny hdx hdy hdt hsp
        hphi hwind a b
    · have h2 := Dabry.update_phi_lolla_slice s'' (hmm.trans hm') a b
      rw [ht] at h2
      rw [h2, Dabry.update_phi_lolla_slice s' hm' a b]
      exact Dabry.lollaNext_congr s'' s' ht hnx hny hdx hdy hdt hsp
        hphi hwind a b

/-- Witness for C2 on a concrete 3×3×2 tracker. -/
theorem claim_C2_witness :
    (0 < 3 ∧ 0 < 3) ∧
    C2Prop (0, 0) (1, 1) (0, 0) 1 3 3 2
      (Dabry.initPhiSlice (Dabry.RFT.init (0, 0) (1, 1) 1 3 3 2 1 (0, 0)
        "sethian" 1 (fun _ _ _ => (0, 0)) (fun _ _ _ => 0))) 0 0 :=
  ⟨⟨by norm_num, by norm_num⟩,
   claim_C2_init_and_order (0, 0) (1, 1) (0, 0) 1 1 1 3 3 2 "sethian"
     (fun _ _ _ => (0, 0)) (fun _ _ _ => 0) _ rfl 0 0 (by norm_num)
     (by norm_num)⟩

/-- A tracker state whose per-step scheme name is unrecognized. -/
def c6State : Dabry.RFTState :=
  { bl := (0, 0), tr := (1, 1), max_time := 1, nx := 3, ny := 3, nt := 2
    delta_x := 1, delta_y := 1, delta_t := 1, speed := 1, x_init := (0, 0)
    wind := fun _ _ _ => (0, 0)
    phi := fun i j k => if i = 1 ∧ j = 1 ∧ k = 0 then 1 else 0
    flatten := false, flatten_factor := 1, method := "foo", t := 0 }

/-- C6: an unrecognized scheme name is *not* fatal in the code —
`update_phi` only prints a message, writes no slice, and still
increments the time index, contradicting the claim's "fails
immediately" and "the tracker's time index does not advance".  A
differencing axis other than 0/1, by contrast, is fatal (`exit(1)`,
modelled as `none`). -/
theorem claim_C6_unknown_scheme_not_fatal :
    (Dabry.update_phi c6State).t = c6State.t + 1 ∧
    (Dabry.update_phi c6State).phi = c6State.phi ∧
    Dabry.central_diff_checked (fun _ _ => (0 : ℚ)) 3 3 2 1 = none ∧
    Dabry.upwind_diff_checked (fun _ _ => (0 : ℚ)) 3 3 (-1) 1 = none := by
  refine ⟨Dabry.update_phi_t _, ?_, ?_, ?_⟩
  · unfold Dabry.update_phi
    rw [if_neg (by decide), if_neg (by decide)]
  · unfold Dabry.central_diff_checked
    rw [if_neg (by decide)]
  · unfold Dabry.upwind_diff_checked
    rw [if_neg (by decide)]

/-- C9: `toggle_flatten` is an involution on the geometric state under
exact arithmetic: two successive calls restore `bl`, `tr`, `delta_x`,
`delta_y`, `x_init` and the `flatten` flag (the first call scales by
the Earth-radius factor, the second by its reciprocal). -/
theorem claim_C9_toggle_flatten_involution (s : Dabry.RFTState)
    (hf : s.flatten_factor ≠ 0) :
    (Dabry.toggle_flatten (Dabry.toggle_flatten s)).bl = s.bl ∧
    (Dabry.toggle_flatten (Dabry.toggle_flatten s)).tr = s.tr ∧
    (Dabry.toggle_flatten (Dabry.toggle_flatten s)).delta_x = s.delta_x ∧
    (Dabry.toggle_flatten (Dabry.toggle_flatten s)).delta_y = s.delta_y ∧
    (Dabry.toggle_flatten (Dabry.toggle_flatten s)).x_init = s.x_init ∧
    (Dabry.toggle_flatten (Dabry.toggle_flatten s)).flatten = s.flatten := by
  cases hb : s.flatten <;>
    simp only [Dabry.toggle_flatten, hb, Bool.not_false, Bool.not_true,
      if_true, if_false, Prod.ext_iff, reduceIte] <;>
    (repeat' apply And.intro) <;>
    first
      | trivial
      | (field_simp; try ring)

/-- Concrete state for the C9 witness, Earth-radius flatten factor. -/
def c9State : Dabry.RFTState :=
  { bl := (1, 2), tr := (3, 4), max_time := 1, nx := 3, ny := 3, nt := 2
    delta_x := 1, delta_y := 1, delta_t := 1, speed := 1, x_init := (5, 6)
    wind := fun _ _ _ => (0, 0), phi := fun _ _ _ => 0
    flatten := false, flatten_factor := 6378137, method := "sethian", t := 0 }

/-- Witness for C9 at `c9State`. -/
theorem claim_C9_witness :
    c9State.flatten_factor ≠ 0 ∧
    ((Dabry.toggle_flatten (Dabry.toggle_flatten c9State)).bl = c9State.bl ∧
     (Dabry.toggle_flatten (Dabry.toggle_flatten c9State)).tr = c9State.tr ∧
     (Dabry.toggle_flatten (Dabry.toggle_flatten c9State)).delta_x =
        c9State.delta_x ∧
     (Dabry.toggle_flatten (Dabry.toggle_flatten c9State)).delta_y =
        c9State.delta_y ∧
     (Dabry.toggle_flatten (Dabry.toggle_flatten c9State)).x_init =
        c9State.x_init ∧
     (Dabry.toggle_flatten (Dabry.toggle_flatten c9State)).flatten =
        c9State.flatten) :=
  ⟨by show (6378137 : ℝ) ≠ 0; norm_num,
   claim_C9_toggle_flatten_involution c9State
     (by show (6378137 : ℝ) ≠ 0; norm_num)⟩

/-! ### The `Wind` base class (`src/src/wind.py`) -/

namespace PyWind

/-- A windfield: an evaluator pair, as in `Wind.__init__`. -/
structure Wind where
  value_func : ℝ × ℝ → ℝ × ℝ
  d_value_func : ℝ × ℝ → (ℝ × ℝ) × (ℝ × ℝ)

/-- numpy broadcasting of a `(2,)` vector over the rows of a `(2,2)`
matrix, as performed by `self._d_value_func(x) + other._value_func(x)`. -/
def matAddVecBroadcast (M : (ℝ × ℝ) × (ℝ × ℝ)) (v : ℝ × ℝ) :
    (ℝ × ℝ) × (ℝ × ℝ) :=
  ((M.1.1 + v.1, M.1.2 + v.2), (M.2.1 + v.1, M.2.2 + v.2))

/-- Componentwise 2×2 matrix addition (what a Jacobian sum would be). -/
def matAdd (M N : (ℝ × ℝ) × (ℝ × ℝ)) : (ℝ × ℝ) × (ℝ × ℝ) :=
  ((M.1.1 + N.1.1, M.1.2 + N.1.2), (M.2.1 + N.2.1, M.2.2 + N.2.2))

/-- `Wind.__add__` (wind.py lines 19-21).  The value lambda adds the two
values; the Jacobian lambda adds `other._value_func(x)` — the other
field's *value*, not its Jacobian — which numpy broadcasts over the
2×2 rows. -/
def Wind.add (a b : Wind) : Wind :=
  { value_func := fun x =>
      ((a.value_func x).1 + (b.value_func x).1,
       (a.value_func x).2 + (b.value_func x).2)
    d_value_func := fun x => matAddVecBroadcast (a.d_value_func x) (b.value_func x) }

/-- `Wind.__mul__` (wind.py lines 23-28).  For a float `other` the body
evaluates `other * self._value_func`, a float multiplied by a Python
function object, which raises `TypeError`; for any other type it raises
`TypeError` explicitly.  So no product field is ever produced: `none`
models the raised exception. -/
def Wind.mul (_ : Wind) (_ : ℝ) : Option Wind := none

/-- Uniform wind with value `(1, 1)` and zero Jacobian. -/
def windA : Wind := ⟨fun _ => (1, 1), fun _ => ((0, 0), (0, 0))⟩

/-- Uniform wind with value `(2, 3)` and zero Jacobian. -/
def windB : Wind := ⟨fun _ => (2, 3), fun _ => ((0, 0), (0, 0))⟩

end PyWind

/-- C3: `__add__` does add the values pointwise, but the Jacobian of a
sum is *not* the sum of the Jacobians: line 21 adds `other`'s value
into the Jacobian (broadcast over rows), so for two zero-Jacobian
fields the sum's Jacobian is nonzero; and `__mul__` with a float raises
`TypeError` instead of scaling, so no scaled field exists at all. -/
theorem claim_C3_wind_algebra_bug :
    (PyWind.Wind.add PyWind.windA PyWind.windB).value_func (0, 0) =
      ((PyWind.windA.value_func (0, 0)).1 + (PyWind.windB.value_func (0, 0)).1,
       (PyWind.windA.value_func (0, 0)).2 + (PyWind.windB.value_func (0, 0)).2) ∧
    (PyWind.Wind.add PyWind.windA PyWind.windB).d_value_func (0, 0) ≠
      PyWind.matAdd (PyWind.windA.d_value_func (0, 0))
        (PyWind.windB.d_value_func (0, 0)) ∧
    PyWind.Wind.mul PyWind.windA 2 = none := by
  refine ⟨rfl, ?_, rfl⟩
  simp only [PyWind.Wind.add, PyWind.windA, PyWind.windB,
    PyWind.matAddVecBroadcast, PyWind.matAdd, Prod.ext_iff]
  norm_num

/-! ### The obstacle-gradient fallback (`src/src/mermoz/problem.py`) -/

/-- The `grad_phi_obs` dictionary built in `MermozProblem.__init__`
(problem.py lines 106-113): `dx = self.geod_l / 1e6`, and every entry is
`lambda t, x: np.array((1/dx*(phi(t, x+(dx,0)) - phi(t,x)),
1/dx*(phi(t, x+(0,dx)) - phi(t,x))))`.  The lambda captures the loop
variable `phi` by reference, so after the loop every stored entry
evaluates the *last* obstacle's value function (CPython late binding).
Keys are modelled by the obstacle's index in the supplied list; with no
obstacles the loop body never runs and no entry exists (`none`). -/
noncomputable def grad_phi_obs (phis : List (ℝ → ℝ × ℝ → ℝ)) (geod_l : ℝ)
    (k : ℕ) : Option (ℝ → ℝ × ℝ → ℝ × ℝ) :=
  match phis.getLast? with
  | none => none
  | some phi =>
      if k < phis.length then
        some (fun t x =>
          let dx := geod_l / 1e6
          (1 / dx * (phi t (x.1 + dx, x.2) - phi t x),
           1 / dx * (phi t (x.1, x.2 + dx) - phi t x)))
      else none

/-- Formalisation of the claim's derived gradient: *centered* finite
differences of obstacle `k`'s own value function with step
`ε = reference_length * 1e-5`. -/
noncomputable def claimedCenteredGrad (phi : ℝ → ℝ × ℝ → ℝ) (l_ref : ℝ) :
    ℝ → ℝ × ℝ → ℝ × ℝ := fun t x =>
  let ε := l_ref * 1e-5
  ((phi t (x.1 + ε, x.2) - phi t (x.1 - ε, x.2)) / (2 * ε),
   (phi t (x.1, x.2 + ε) - phi t (x.1, x.2 - ε)) / (2 * ε))

/-- C4 counterexample: with two obstacles `phi_0 ≡ 0` and
`phi_1 = x₁²`, `geod_l = 1e6` (so `dx = 1`) and any reference length
(here `1e5`, so `ε = 1`), the derived gradient of obstacle 0 is the
forward difference of the *last* obstacle's value function, `(1, 0)`,
not the centered difference of `phi_0`, which is `(0, 0)`. -/
theorem claim_C4_counterexample :
    grad_phi_obs [fun _ _ => 0, fun _ x => x.1 ^ 2] 1000000 0 ≠
      some (claimedCenteredGrad (fun _ _ => 0) 100000) := by
  intro h
  unfold grad_phi_obs at h
  simp only [List.getLast?] at h
  rw [if_pos (by norm_num)] at h
  have h2 := congrFun (congrFun (Option.some.inj h) 0) (0, 0)
  rw [Prod.ext_iff] at h2
  have h3 := h2.1
  simp only [claimedCenteredGrad] at h3
  norm_num at h3

/-- C4 (amended): for every obstacle index `k` present in the problem,
the derived gradient entry is the *forward* one-sided finite-difference
gradient, with step `dx = geod_l / 1e6` (one millionth of the
init-target geodesic distance), of the value function of the *last*
obstacle supplied (Python's late-binding closure capture) — which is
obstacle `k`'s own only when it is the last or all value functions
coincide. -/
theorem claim_C4_forward_diff_of_last (phis : List (ℝ → ℝ × ℝ → ℝ))
    (geodL : ℝ) (k : ℕ) (phi_last : ℝ → ℝ × ℝ → ℝ)
    (hlast : phis.getLast? = some phi_last) (hk : k < phis.length) :
    grad_phi_obs phis geodL k =
      some (fun t x =>
        (1 / (geodL / 1e6) * (phi_last t (x.1 + geodL / 1e6, x.2) - phi_last t x),
         1 / (geodL / 1e6) * (phi_last t (x.1, x.2 + geodL / 1e6) - phi_last t x))) := by
  unfold grad_phi_obs
  rw [hlast]
  simp [hk]

/-- Witness for the amended C4 on a one-obstacle problem. -/
theorem claim_C4_witness :
    (([fun _ x => x.1 ^ 2] : List (ℝ → ℝ × ℝ → ℝ)).getLast? =
        some (fun _ x => x.1 ^ 2) ∧ 0 < 1) ∧
    grad_phi_obs [fun _ x => x.1 ^ 2] 1000000 0 =
      some (fun _ x =>
        (1 / ((1000000 : ℝ) / 1e6) *
            ((x.1 + (1000000 : ℝ) / 1e6) ^ 2 - x.1 ^ 2),
         1 / ((1000000 : ℝ) / 1e6) * (x.1 ^ 2 - x.1 ^ 2))) :=
  ⟨⟨rfl, by norm_num⟩,
   claim_C4_forward_diff_of_last [fun _ x => x.1 ^ 2] 1000000 0
     (fun _ x => x.1 ^ 2) rfl (by norm_num)⟩

/-! ### `WatershedObs` (`src/dabry/obstacle.py`, lines 257-273) -/

/-- `WatershedObs.value`:
`np.max((a_tol, speed*(t_target - t)))**2 - np.sum(np.square(x - center))`. -/
noncomputable def watershedValue (center : ℝ × ℝ) (t_target speed a_tol : ℝ)
    (t : ℝ) (x : ℝ × ℝ) : ℝ :=
  max a_tol (speed * (t_target - t)) ^ 2 -
    ((x.1 - center.1) ^ 2 + (x.2 - center.2) ^ 2)

/-- `WatershedObs.d_value`: `self.center - x` (the time argument is
unused, as in the source). -/
def watershedDValue (center : ℝ × ℝ) (_t : ℝ) (x : ℝ × ℝ) : ℝ × ℝ :=
  (center.1 - x.1, center.2 - x.2)

/-- C5 failing input: for the time-decaying disk obstacle with center
`(0,0)`, `t_target = 1`, `speed = 1`, `a_tol = 1`, at `t = 0` and
`x = (1, 0)`, the x-partial derivative of the value function is `-2`
(the true gradient is `2·(center − x) = (−2, 0)`), yet `d_value`
returns `center − x = (−1, 0)`: the analytic gradient is off by a
factor of 2. -/
theorem claim_C5_watershed_gradient_bug :
    HasDerivAt (fun s : ℝ => watershedValue (0, 0) 1 1 1 0 (s, 0)) (-2) 1 ∧
    watershedDValue (0, 0) 0 (1, 0) = (-1, 0) ∧ ((-2 : ℝ) ≠ -1) := by
  refine ⟨?_, by norm_num [watershedDValue, Prod.ext_iff], by norm_num⟩
  have he : (fun s : ℝ => watershedValue (0, 0) 1 1 1 0 (s, 0)) =
      fun s => 1 - s ^ 2 := by
    funext s
    norm_num [watershedValue, max_self]
  rw [he]
  simpa using (hasDerivAt_pow 2 (1 : ℝ)).const_sub 1

/-! ### Obstacles (`src/dabry/obstacle.py`) -/

/-- An obstacle: evaluator pair `value`, `d_value` (the `Obstacle` ABC). -/
structure Obstacle where
  value : ℝ → ℝ × ℝ → ℝ
  d_value : ℝ → ℝ × ℝ → ℝ × ℝ

/-- `WrapperObs` (obstacle.py lines 73-90): `value` and `d_value`
forward to the inner obstacle at the rescaled query
`(time_origin + t*scale_time, bl + x*scale_length)`; `d_value` applies
no chain-rule factor. -/
def wrapperObs (obs : Obstacle) (scale_length : ℝ) (bl : ℝ × ℝ)
    (scale_time : ℝ) (time_origin : ℝ) : Obstacle :=
  { value := fun t x => obs.value (time_origin + t * scale_time)
      (bl.1 + x.1 * scale_length, bl.2 + x.2 * scale_length)
    d_value := fun t x => obs.d_value (time_origin + t * scale_time)
      (bl.1 + x.1 * scale_length, bl.2 + x.2 * scale_length) }

/-- The spherical-to-Cartesian embedding used by `GreatCircleObs`:
`(cos λ cos φ, sin λ cos φ, sin φ)` for `x = (λ, φ)`. -/
noncomputable def sphericalEmbed (x : ℝ × ℝ) : ℝ × ℝ × ℝ :=
  (Real.cos x.1 * Real.cos x.2, Real.sin x.1 * Real.cos x.2, Real.sin x.2)

/-- Dot product on the 3-D embedding space (`X @ self.dir_vect`). -/
def dot3 (a b : ℝ × ℝ × ℝ) : ℝ :=
  a.1 * b.1 + a.2.1 * b.2.1 + a.2.2 * b.2.2

/-- Modelled from the spec: `Utils.in_lonlat_box` lives in
`dabry/misc.py`, which is not under `src/` — membership of a query
point in the rectangular lon/lat activation zone with bottom-left
corner `z1` and top-right corner `z2`. -/
def in_lonlat_box (z1 z2 x : ℝ × ℝ) : Prop :=
  z1.1 ≤ x.1 ∧ x.1 ≤ z2.1 ∧ z1.2 ≤ x.2 ∧ x.2 ≤ z2.2

/-- `GreatCircleObs` in the configuration the claim is about:
constructed with an activation zone (`z1`/`z2` not `None`); `dir_vect`
is the stored plane normal, `-cross(X1, X2)` normalized by the
constructor. -/
structure GreatCircleObs where
  z1 : ℝ × ℝ
  z2 : ℝ × ℝ
  dir_vect : ℝ × ℝ × ℝ

open Classical in
/-- `GreatCircleObs.value` (obstacle.py lines 304-309): outside the
activation zone the fixed feasible sentinel `1.`, otherwise the dot
product of the embedded query point with the stored normal. -/
noncomputable def GreatCircleObs.value (o : GreatCircleObs) (_t : ℝ)
    (x : ℝ × ℝ) : ℝ :=
  if ¬ in_lonlat_box o.z1 o.z2 x then 1
  else dot3 (sphericalEmbed x) o.dir_vect

/-- C8: for a great-circle obstacle constructed with an activation
zone, `value` at a query point outside the rectangular lon/lat zone is
the fixed positive feasible sentinel `1.` at every time, regardless of
the side of the separating plane; at a point inside the zone it is the
dot product of the spherical-to-Cartesian embedding of the point with
the stored unit plane normal. -/
theorem claim_C8_zone_gated_value (o : GreatCircleObs) (t : ℝ) (x : ℝ × ℝ) :
    (¬ in_lonlat_box o.z1 o.z2 x →
      o.value t x = 1 ∧ (0 : ℝ) < o.value t x) ∧
    (in_lonlat_box o.z1 o.z2 x →
      o.value t x = dot3 (sphericalEmbed x) o.dir_vect) := by
  constructor <;> intro h <;> unfold GreatCircleObs.value
  · rw [if_pos h]
    exact ⟨rfl, one_pos⟩
  · rw [if_neg (not_not_intro h)]

/-- Witness for C8: a point east of the unit zone, on the forbidden
side of the equatorial plane normal `(0,0,1)`, still reads `1.`. -/
theorem claim_C8_witness :
    ¬ in_lonlat_box (0, 0) (1, 1) (2, 1) ∧
    (GreatCircleObs.value ⟨(0, 0), (1, 1), (0, 0, 1)⟩ 0 (2, 1) = 1 ∧
      (0 : ℝ) < GreatCircleObs.value ⟨(0, 0), (1, 1), (0, 0, 1)⟩ 0 (2, 1)) :=
  have hbox : ¬ in_lonlat_box ((0 : ℝ), (0 : ℝ)) (1, 1) (2, 1) := by
    norm_num [in_lonlat_box]
  ⟨hbox, (claim_C8_zone_gated_value ⟨(0, 0), (1, 1), (0, 0, 1)⟩ 0 (2, 1)).1 hbox⟩

/-- C10: the unit-rescaling wrapper's value equals the inner obstacle's
value at the affinely rescaled query
`(time_origin + t·scale_time, bl + x·scale_length)`, and its `d_value`
equals the inner `d_value` at that same rescaled query, with no
chain-rule rescaling by `scale_length`. -/
theorem claim_C10_wrapper_rescaling (obs : Obstacle) (sl : ℝ) (bl : ℝ × ℝ)
    (st t0 t : ℝ) (x : ℝ × ℝ) :
    (wrapperObs obs sl bl st t0).value t x =
      obs.value (t0 + t * st) (bl.1 + x.1 * sl, bl.2 + x.2 * sl) ∧
    (wrapperObs obs sl bl st t0).d_value t x =
      obs.d_value (t0 + t * st) (bl.1 + x.1 * sl, bl.2 + x.2 * sl) :=
  ⟨rfl, rfl⟩

/-- Formalisation of the claim's per-cell Sethian update: identical to
the code's step except that the advection stencil uses each axis's own
grid step (`δy` for the two y-axis one-sided differences). -/
noncomputable def sethianSpecRHS (phi : ℕ → ℕ → ℝ) (wind : ℕ → ℕ → ℝ × ℝ)
    (δx δy δt speed : ℝ) (i j : ℕ) : ℝ :=
  phi i j - δt *
    (speed * Real.sqrt
        (((phi (i+1) j - phi (i-1) j) / (2 * δx)) ^ 2 +
         ((phi i (j+1) - phi i (j-1)) / (2 * δy)) ^ 2) +
     (max (wind i j).1 0 * ((phi i j - phi (i-1) j) / δx) +
      min (wind i j).1 0 * ((phi (i+1) j - phi i j) / δx) +
      max (wind i j).2 0 * ((phi i j - phi i (j-1)) / δy) +
      min (wind i j).2 0 * ((phi i (j+1) - phi i j) / δy)))

/-- A concrete tracker state exercising the Sethian step with
`delta_x = 1 ≠ 2 = delta_y`, a pure y-directed flow and a bump field. -/
def c1State : Dabry.RFTState :=
  { bl := (0, 0), tr := (2, 4), max_time := 1, nx := 3, ny := 3, nt := 2
    delta_x := 1, delta_y := 2, delta_t := 1, speed := 1, x_init := (0, 0)
    wind := fun _ _ _ => (0, 1)
    phi := fun i j k => if i = 1 ∧ j = 1 ∧ k = 0 then 1 else 0
    flatten := false, flatten_factor := 1, method := "sethian", t := 0 }

/-- C1 counterexample: at the interior cell (1,1) of `c1State` the value
the code writes to slice 1 differs from the claimed formula, because
`update_phi` passes only `delta_x` to `wind_dot_phi`, so the y-axis
one-sided differences are divided by `delta_x`, not `delta_y`. -/
theorem claim_C1_counterexample :
    (Dabry.update_phi c1State).phi 1 1 1 ≠
      sethianSpecRHS (fun a b => c1State.phi a b 0)
        (fun a b => c1State.wind a b 0)
        c1State.delta_x c1State.delta_y c1State.delta_t c1State.speed 1 1 := by
  have h := Dabry.update_phi_sethian_slice c1State rfl 1 1
  rw [show c1State.t + 1 = 1 from rfl] at h
  rw [h, Dabry.sethianNext_interior c1State 1 1 le_rfl (by norm_num [c1State])
        le_rfl (by norm_num [c1State])]
  unfold sethianSpecRHS
  norm_num [c1State, Real.sqrt_zero]

/-- C1 (amended): with the native kernel and the `sethian` scheme, every
update step sets, at every interior cell, `phi[i,j,t+1] = phi[i,j,t] −
δt·(speed·‖∇phi‖` by centered differences with each axis's own step
`+ the first-order upwind advection term)`, where the upwind one-sided
differences of *both* axes are divided by the x-step `delta_x` (the
single step `update_phi` hands to `wind_dot_phi`). -/
theorem claim_C1_sethian_update (s : Dabry.RFTState)
    (hm : s.method = "sethian") (i j : ℕ)
    (hi1 : 1 ≤ i) (hi2 : i + 1 < s.nx) (hj1 : 1 ≤ j) (hj2 : j + 1 < s.ny) :
    (Dabry.update_phi s).phi i j (s.t + 1) =
      s.phi i j s.t - s.delta_t *
        (s.speed * Real.sqrt
            (((s.phi (i+1) j s.t - s.phi (i-1) j s.t) / (2 * s.delta_x)) ^ 2 +
             ((s.phi i (j+1) s.t - s.phi i (j-1) s.t) / (2 * s.delta_y)) ^ 2) +
         (max (s.wind i j s.t).1 0 *
              ((s.phi i j s.t - s.phi (i-1) j s.t) / s.delta_x) +
          min (s.wind i j s.t).1 0 *
              ((s.phi (i+1) j s.t - s.phi i j s.t) / s.delta_x) +
          max (s.wind i j s.t).2 0 *
              ((s.phi i j s.t - s.phi i (j-1) s.t) / s.delta_x) +
          min (s.wind i j s.t).2 0 *
              ((s.phi i (j+1) s.t - s.phi i j s.t) / s.delta_x))) := by
  rw [Dabry.update_phi_sethian_slice s hm i j,
      Dabry.sethianNext_interior s i j hi1 hi2 hj1 hj2]

/-- Witness for the amended C1 at the interior cell of `c1State`. -/
theorem claim_C1_witness :
    (c1State.method = "sethian" ∧ 1 ≤ 1 ∧ 1 + 1 < c1State.nx ∧
      1 + 1 < c1State.ny) ∧
    (Dabry.update_phi c1State).phi 1 1 (c1State.t + 1) =
      c1State.phi 1 1 c1State.t - c1State.delta_t *
        (c1State.speed * Real.sqrt
            (((c1State.phi 2 1 c1State.t - c1State.phi 0 1 c1State.t) /
                (2 * c1State.delta_x)) ^ 2 +
             ((c1State.phi 1 2 c1State.t - c1State.phi 1 0 c1State.t) /
                (2 * c1State.delta_y)) ^ 2) +
         (max (c1State.wind 1 1 c1State.t).1 0 *
              ((c1State.phi 1 1 c1State.t - c1State.phi 0 1 c1State.t) /
                c1State.delta_x) +
          min (c1State.wind 1 1 c1State.t).1 0 *
              ((c1State.phi 2 1 c1State.t - c1State.phi 1 1 c1State.t) /
                c1State.delta_x) +
          max (c1State.wind 1 1 c1State.t).2 0 *
              ((c1State.phi 1 1 c1State.t - c1State.phi 1 0 c1State.t) /
                c1State.delta_x) +
          min (c1State.wind 1 1 c1State.t).2 0 *
              ((c1State.phi 1 2 c1State.t - c1State.phi 1 1 c1State.t) /
                c1State.delta_x))) :=
  ⟨⟨rfl, le_rfl, by norm_num [c1State], by norm_num [c1State]⟩,
   claim_C1_sethian_update c1State rfl 1 1 le_rfl (by norm_num [c1State])
     le_rfl (by norm_num [c1State])⟩


/-- C7: for every 2-D input field, each of the three finite-difference
kernels (`central_diff`, `upwind_diff` and the advection kernel
`wind_dot_phi`) returns an array whose every boundary cell is a copy of
the nearest interior cell: non-corner edge cells equal the adjacent
cell one step inward orthogonally to the edge, corner cells the cell
one step inward diagonally. -/
theorem claim_C7_kernel_boundary_copies {K : Type*} [LinearOrderedField K]
    (field : ℕ → ℕ → K) (wind : ℕ → ℕ → K × K) (nx ny : ℕ) (axis : Fin 2)
    (dc du dw : K) (h3x : 3 ≤ nx) (h3y : 3 ≤ ny) :
    Dabry.boundaryCopied nx ny (Dabry.central_diff field nx ny axis dc) ∧
    Dabry.boundaryCopied nx ny (Dabry.upwind_diff field nx ny axis du) ∧
    Dabry.boundaryCopied nx ny (Dabry.wind_dot_phi field wind nx ny dw) :=
  ⟨Dabry.fdAssemble_boundaryCopied nx ny _ h3x h3y,
   Dabry.fdAssemble_boundaryCopied nx ny _ h3x h3y,
   Dabry.fdAssemble_boundaryCopied nx ny _ h3x h3y⟩

/-- Witness for C7 on a concrete 3×3 rational grid. -/
theorem claim_C7_witness :
    (3 ≤ 3 ∧ 3 ≤ 3) ∧
    (Dabry.boundaryCopied 3 3
        (Dabry.central_diff (fun i j => (i : ℚ) + 2 * j) 3 3 0 1) ∧
     Dabry.boundaryCopied 3 3
        (Dabry.upwind_diff (fun i j => (i : ℚ) + 2 * j) 3 3 0 1) ∧
     Dabry.boundaryCopied 3 3
        (Dabry.wind_dot_phi (fun i j => (i : ℚ) + 2 * j)
          (fun _ _ => ((1 : ℚ), -1)) 3 3 1)) :=
  ⟨⟨le_rfl, le_rfl⟩,
   claim_C7_kernel_boundary_copies (fun i j => (i : ℚ) + 2 * j)
     (fun _ _ => ((1 : ℚ), -1)) 3 3 0 1 1 1 le_rfl le_rfl⟩

